import Mathlib

/-!
Shallow embedding of `src/enhanced_magisk_patcher.py` (class
`MagiskPatcherEnhanced`), restricted to the logic the specification's
claims are about:

* `extract_from_apk` — ZIP-entry scanning, version parsing, the 32-bit
  compatibility substitution, the excluded-library filter, the `stub.apk`
  rule and the missing-file diagnostics;
* `_patch_worker` — the patch orchestration: working-directory staging,
  unpack, ramdisk classification, SHA1 capture, payload compression,
  configuration-file writing, ramdisk patch, kernel hex patching,
  device-tree patching, repack, and the `finally` cleanup.

The external `magiskboot` binary is modelled as an oracle (`World`)
giving each invocation's exit code, the files it leaves in the working
directory, and the captured stdout of capture-mode queries.  Machine
behaviour of the toolkit itself is out of scope (the repository treats
it as opaque); the embedding is of the Python control flow around it.

Python string primitives (`split`, `startswith`, `endswith`, `replace`,
`strip`, `re.search` for the two fixed patterns) are re-implemented
structurally over `List Char` so that every definition evaluates inside
the kernel.
-/

namespace Magisk

/-- Python `s.split(sep)` for a one-character separator: every occurrence
separates, empty fields are kept (`"a//b".split("/") == ["a","","b"]`). -/
def splitCharAux (sep : Char) : List Char → List Char → List (List Char)
  | acc, [] => [acc.reverse]
  | acc, c :: rest =>
    if c = sep then acc.reverse :: splitCharAux sep [] rest
    else splitCharAux sep (c :: acc) rest

def pySplit (s : String) (sep : Char) : List String :=
  (splitCharAux sep [] s.toList).map String.mk

/-- Python `s.startswith(p)`. -/
def pyStartsWith (s p : String) : Bool := p.toList.isPrefixOf s.toList

/-- Python `s.endswith(p)`. -/
def pyEndsWith (s p : String) : Bool := p.toList.reverse.isPrefixOf s.toList.reverse

/-- Python `s.replace(old, new)` for a nonempty `old`: all non-overlapping
occurrences, scanned left to right, are replaced.  Fuel-indexed so the
recursion is structural; `pyReplace` supplies fuel `s.length`, which is
enough because every step consumes at least one character. -/
def replaceFuel (pat rep : List Char) : Nat → List Char → List Char
  | _, [] => []
  | 0, l => l
  | Nat.succ fuel, c :: rest =>
    if pat.isPrefixOf (c :: rest) ∧ pat ≠ [] then
      rep ++ replaceFuel pat rep fuel (List.drop (pat.length - 1) rest)
    else
      c :: replaceFuel pat rep fuel rest

def pyReplace (s pat rep : String) : String :=
  String.mk (replaceFuel pat.toList rep.toList s.toList.length s.toList)

/-- The whitespace characters Python `str.strip()` removes (ASCII part). -/
def pyIsSpace (c : Char) : Bool :=
  c = ' ' || c = '\t' || c = '\n' || c = '\r' || c = '\x0b' || c = '\x0c'

def stripL (l : List Char) : List Char :=
  ((l.dropWhile pyIsSpace).reverse.dropWhile pyIsSpace).reverse

/-- Python `s.strip()`. -/
def pyStrip (s : String) : String := String.mk (stripL s.toList)

def isDig (c : Char) : Bool := '0' ≤ c && c ≤ '9'

def natOfDigits (l : List Char) : Nat :=
  l.foldl (fun n c => 10 * n + (c.toNat - 48)) 0

/-- The literal part of the pattern `MAGISK_VER_CODE=(\d+)`. -/
def verCodePat : List Char := "MAGISK_VER_CODE=".toList

/-- Python `re.search(r'MAGISK_VER_CODE=(\d+)', content)`: the first
position where the literal is followed by at least one digit wins, and
the capture is the maximal digit run there. -/
def findVerCodeL : List Char → Option Nat
  | [] => none
  | c :: rest =>
    if verCodePat.isPrefixOf (c :: rest) then
      let ds := (List.drop (verCodePat.length - 1) rest).takeWhile isDig
      if ds = [] then findVerCodeL rest else some (natOfDigits ds)
    else findVerCodeL rest

/-- Python `', '.join(xs)`. -/
def joinComma : List String → String
  | [] => ""
  | [x] => x
  | x :: y :: rest => x ++ ", " ++ joinComma (y :: rest)

/-! ## The input package (APK) model

A package is its ZIP entry-name list (in `apk.filelist` order) together
with the content of the version-declaration script entry
`assets/util_functions.sh` when that entry is present (`apk.open`
raises, and the code falls into its `except` branch, exactly when the
entry is absent). -/

structure Apk where
  entries : List String
  utilFunctions : Option String
deriving DecidableEq

/-- Lines 999-1019: `magisk_ver` starts at `0`; the `try` block overwrites
it only when the script entry exists and the pattern matches. -/
def magiskVerOf : Option String → Nat
  | none => 0
  | some content => (findVerCodeL content.toList).getD 0

/-- Line 1050: the libraries never extracted. -/
def excludedLibs : List String :=
  ["libmagiskboot.so", "libbusybox.so", "libmagiskpolicy.so"]

/-- Which branch of the extraction loop produced a payload entry
(the code logs `(32-bit compat)` on the compatibility branch). -/
inductive ExtractKind
  | direct
  | compat32
  | stubApk
deriving DecidableEq

/-- Lines 1037-1093, body of the `for file_info in apk.filelist` loop for
one entry: the payload-map insertions (logical name, path relative to
the working directory) and the branch markers it produces.  `parts[-1]`
and `parts[-2]` are total here because the `len(parts) < 2` guard has
already passed. -/
def entryExtract (arch : String) (magiskVer : Nat) (filename : String) :
    List (String × String) × List (String × ExtractKind) :=
  let parts := pySplit filename '/'
  if parts.length < 2 then ([], [])
  else
    let fileName := parts.getLastD ""
    let parentDir := parts.getD (parts.length - 2) ""
    if pyStartsWith fileName "lib" && pyEndsWith fileName ".so" then
      if fileName ∈ excludedLibs then ([], [])
      else if parentDir = arch then
        let outputName := pyReplace (pyReplace fileName "lib" "") ".so" ""
        ([(outputName, outputName)], [(outputName, ExtractKind.direct)])
      else if magiskVer < 28000 then
        if arch = "arm64-v8a" ∧ fileName = "libmagisk32.so" ∧ parentDir = "armeabi-v7a" then
          ([("magisk32", "magisk32")], [("magisk32", ExtractKind.compat32)])
        else if arch = "x86_64" ∧ fileName = "libmagisk32.so" ∧ parentDir = "x86" then
          ([("magisk32", "magisk32")], [("magisk32", ExtractKind.compat32)])
        else ([], [])
      else ([], [])
    else if fileName = "stub.apk" then
      ([("stub.apk", "stub.apk")], [("stub.apk", ExtractKind.stubApk)])
    else ([], [])

/-- The whole extraction loop, in `filelist` order. -/
def scanEntries (arch : String) (magiskVer : Nat) :
    List String → List (String × String) × List (String × ExtractKind)
  | [] => ([], [])
  | e :: rest =>
    let one := entryExtract arch magiskVer e
    let more := scanEntries arch magiskVer rest
    (one.1 ++ more.1, one.2 ++ more.2)

/-- Lines 1022-1032: `available_libs` keys — the architecture folder of
every entry `lib/<arch>/<file>.so` with exactly three path segments, in
first-appearance (dict-insertion) order. -/
def entryArchOf (filename : String) : Option String :=
  if pyStartsWith filename "lib/" && pyEndsWith filename ".so" then
    let parts := pySplit filename '/'
    if parts.length = 3 then some (parts.getD 1 "") else none
  else none

def availableArchs (entries : List String) : List String :=
  entries.foldl (fun acc e =>
    match entryArchOf e with
    | some a => if a ∈ acc then acc else acc ++ [a]
    | none => acc) []

/-- Result of `extract_from_apk`: the payload map (`None` on failure),
the branch markers of every extraction performed during the scan, and
the WARNING/ERROR diagnostics the failure paths log.  INFO progress
lines are not part of the model. -/
structure ExtractResult where
  events : List (String × ExtractKind)
  diagnostics : List String
  result : Option (List (String × String))
deriving DecidableEq

def requiredFiles : List String := ["magiskinit"]

def payloadKeys (p : List (String × String)) : List String := p.map Prod.fst

/-- Lines 991-1113: `extract_from_apk(apk_path, arch, temp_dir)`. -/
def extract_from_apk (apk : Apk) (arch : String) : ExtractResult :=
  let magiskVer := magiskVerOf apk.utilFunctions
  let verDiag : List String :=
    match apk.utilFunctions with
    | none => ["Could not determine Magisk version"]
    | some _ => []
  let archs := availableArchs apk.entries
  let scanned := scanEntries arch magiskVer apk.entries
  let neededFiles := scanned.1
  let missingFiles := requiredFiles.filter (fun f => f ∉ payloadKeys neededFiles)
  if missingFiles = [] then
    { events := scanned.2, diagnostics := verDiag, result := some neededFiles }
  else
    let missDiag := ["Missing required files: " ++ joinComma missingFiles]
    let archDiag : List String :=
      if arch ∈ archs then []
      else ["Architecture " ++ arch ++ " not available in this APK",
            "Try one of: " ++ joinComma archs]
    { events := scanned.2, diagnostics := verDiag ++ missDiag ++ archDiag,
      result := none }

/-! ## The patch worker (`_patch_worker`, lines 671-949)

The worker is a straight-line sequence of stages; a raised exception
short-circuits to the `except`/`finally` blocks.  Each stage is a
function `RunState → RunState × Option String` (`some msg` models a
raised `Exception(msg)`), and `andThen` is the sequencing that a raise
short-circuits.  `World` is the oracle for the external toolkit: the
exit code of each streamed invocation (`run_command`, `-1` standing for
a spawn failure caught there), the files an invocation leaves in the
working directory, and the stdout of capture-mode queries
(`run_command_output`, `none` modelling the exception branch that
returns the empty string).  Filesystem primitives used by the worker
(`mkdtemp`, `copy2`, `os.remove`, `rmtree`, writing `config`) are
modelled as succeeding; command argument lists are modelled without the
leading `magiskboot` executable path. -/

structure Env where
  keepVerity : Bool
  keepForceEncrypt : Bool
  recoveryMode : Bool
  patchVbmetaFlag : Bool
  legacySar : Bool
deriving DecidableEq

/-- `'true' if flag.get() else 'false'` (lines 708-712). -/
def boolStr (b : Bool) : String := if b then "true" else "false"

structure World where
  exitCode : List String → Int
  creates : List String → List String
  captureOut : List String → Option String

/-- The working-directory state threaded through the stages, plus the
observables the claims are about: toolkit invocations in order, file
copies, the payload map, the captured SHA1, the written `config` lines
and the log. -/
structure RunState where
  files : List String
  cmds : List (List String)
  copies : List (String × String)
  needed : List (String × String)
  sha1 : String
  config : Option (List String)
  logs : List (String × String)
deriving DecidableEq

def addFile (st : RunState) (f : String) : RunState :=
  if f ∈ st.files then st else { st with files := st.files ++ [f] }

def addFiles (st : RunState) (fs : List String) : RunState := fs.foldl addFile st

/-- `run_command` (lines 951-977): streams output, returns the exit code
(`-1` on a spawn failure); the files the invocation leaves behind come
from the oracle. -/
def run_command (w : World) (st : RunState) (cmd : List String) : RunState × Int :=
  (addFiles { st with cmds := st.cmds ++ [cmd] } (w.creates cmd), w.exitCode cmd)

/-- `run_command_output` (lines 979-989): `result.stdout.strip()`, or the
empty string when the invocation raises. -/
def run_command_output (w : World) (cmd : List String) : String :=
  match w.captureOut cmd with
  | none => ""
  | some s => pyStrip s

/-- `shutil.copy2` inside the working directory. -/
def copy2 (st : RunState) (src dst : String) : RunState :=
  let st1 := addFile st dst
  { st1 with copies := st1.copies ++ [(src, dst)] }

/-- `shutil.copy2` to a destination outside the working directory. -/
def copyOut (st : RunState) (src dst : String) : RunState :=
  { st with copies := st.copies ++ [(src, dst)] }

def logMsg (st : RunState) (msg lvl : String) : RunState :=
  { st with logs := st.logs ++ [(msg, lvl)] }

/-- `os.remove` of a working-directory file. -/
def osRemove (st : RunState) (f : String) : RunState :=
  { st with files := st.files.filter (fun g => g ≠ f) }

/-- Raise-aware sequencing of stages. -/
def andThen (r : RunState × Option String) (f : RunState → RunState × Option String) :
    RunState × Option String :=
  match r with
  | (st, some e) => (st, some e)
  | (st, none) => f st

/-- Lines 685-691: fresh working directory holding the copied `boot.img`.
(INFO log lines of the worker that no claim mentions are elided.) -/
def initState : RunState :=
  { files := ["boot.img"], cmds := [], copies := [("<selected boot image>", "boot.img")],
    needed := [], sha1 := "", config := none, logs := [] }

/-- Lines 701-704: call `extract_from_apk`; `if not needed_files: raise`.
On success the extracted payload files are in the working directory. -/
def stageExtract (apk : Apk) (arch : String) (st : RunState) : RunState × Option String :=
  match (extract_from_apk apk arch).result with
  | none => (st, some "Failed to extract necessary files from APK")
  | some neededFiles =>
    if neededFiles = [] then (st, some "Failed to extract necessary files from APK")
    else (addFiles { st with needed := neededFiles } (payloadKeys neededFiles), none)

/-- Lines 719-725. -/
def stageUnpack (w : World) (st : RunState) : RunState × Option String :=
  let r := run_command w st ["unpack", "boot.img"]
  if r.2 ≠ 0 then (r.1, some "Failed to unpack boot image!") else (r.1, none)

def cpioTestCmd : List String := ["cpio", "ramdisk.cpio", "test"]

def cpioRestoreCmd : List String :=
  ["cpio", "ramdisk.cpio", "extract .backup/.magisk config.orig", "restore"]

/-- Lines 727-746: ramdisk classification.  Exit 0: stock, back up the
original ramdisk.  Exit 1: already patched, restore the embedded backup
(the restore invocation's own exit code is ignored) and then back up.
Any other exit: fatal.  No ramdisk: valid non-fatal state. -/
def stageClassify (w : World) (st : RunState) : RunState × Option String :=
  if "ramdisk.cpio" ∈ st.files then
    let r := run_command w st cpioTestCmd
    if r.2 = 0 then
      (copy2 (logMsg r.1 "Stock boot image detected" "SUCCESS")
        "ramdisk.cpio" "ramdisk.cpio.orig", none)
    else if r.2 = 1 then
      let r2 := run_command w (logMsg r.1 "Magisk patched boot image detected" "WARNING")
        cpioRestoreCmd
      (copy2 r2.1 "ramdisk.cpio" "ramdisk.cpio.orig", none)
    else
      (r.1, some "Boot image patched by unsupported programs!")
  else
    (logMsg st "No ramdisk found (skip_initramfs)" "WARNING", none)

def sha1Cmd : List String := ["sha1", "boot.img"]

/-- Lines 748-755: best-effort SHA1 capture;
`sha1 = sha1_output.strip() if sha1_output else ""`. -/
def stageSha1 (w : World) (st : RunState) : RunState × Option String :=
  let out := run_command_output w sha1Cmd
  let sha1 := if out ≠ "" then pyStrip out else ""
  ({ st with sha1 := sha1 }, none)

def compressNames : List String := ["magisk", "magisk32", "magisk64", "init-ld"]

/-- Python dict lookup (last insertion for a key wins). -/
def dictGet (d : List (String × String)) (k : String) : String :=
  (d.reverse.lookup k).getD ""

/-- Lines 757-773: compress each payload file present in the map; exit
codes are ignored. -/
def stageCompress (w : World) (st : RunState) : RunState × Option String :=
  let st := compressNames.foldl (fun st name =>
    if name ∈ payloadKeys st.needed then
      (run_command w st ["compress=xz", dictGet st.needed name, name ++ ".xz"]).1
    else st) st
  let st :=
    if "stub.apk" ∈ payloadKeys st.needed then
      (run_command w st ["compress=xz", dictGet st.needed "stub.apk", "stub.xz"]).1
    else st
  (st, none)

/-- Lines 775-778. -/
def stageMagiskinit (st : RunState) : RunState × Option String :=
  if "magiskinit" ∈ payloadKeys st.needed then
    (copy2 st (dictGet st.needed "magiskinit") "magiskinit", none)
  else (st, none)

/-- Lines 780-789: the `config` file, one `KEY=value` per line, `SHA1`
appended only when the captured digest is nonempty. -/
def configLines (env : Env) (sha1 : String) : List String :=
  ["KEEPVERITY=" ++ boolStr env.keepVerity,
   "KEEPFORCEENCRYPT=" ++ boolStr env.keepForceEncrypt,
   "RECOVERYMODE=" ++ boolStr env.recoveryMode,
   "PATCHVBMETAFLAG=" ++ boolStr env.patchVbmetaFlag,
   "LEGACYSAR=" ++ boolStr env.legacySar] ++
  (if sha1 ≠ "" then ["SHA1=" ++ sha1] else [])

def stageConfig (env : Env) (st : RunState) : RunState × Option String :=
  (addFile { st with config := some (configLines env st.sha1) } "config", none)

/-- Lines 791-827: the single cpio invocation patching the ramdisk. -/
def stageRamdiskPatch (w : World) (st : RunState) : RunState × Option String :=
  if "ramdisk.cpio" ∈ st.files then
    let base := ["cpio", "ramdisk.cpio",
                 "add 0750 init magiskinit",
                 "mkdir 0750 overlay.d",
                 "mkdir 0750 overlay.d/sbin"]
    let xzAdds := (compressNames.filter (fun n => (n ++ ".xz") ∈ st.files)).map
      (fun n => "add 0644 overlay.d/sbin/" ++ n ++ ".xz " ++ n ++ ".xz")
    let stubAdd :=
      if "stub.xz" ∈ st.files then ["add 0644 overlay.d/sbin/stub.xz stub.xz"] else []
    let tl := ["patch", "backup ramdisk.cpio.orig", "mkdir 000 .backup",
               "add 000 .backup/.magisk config"]
    let r := run_command w st (base ++ xzAdds ++ stubAdd ++ tl)
    if r.2 ≠ 0 then (r.1, some "Failed to patch ramdisk!") else (r.1, none)
  else (st, none)

/-- Lines 838-843: the three fixed hexpatch pairs, verbatim. -/
def kernelPatches : List (String × String) :=
  [("49010054011440B93FA00F71E9000054010840B93FA00F7189000054001840B91FA00F7188010054",
    "A1020054011440B93FA00F7140020054010840B93FA00F71E0010054001840B91FA00F7181010054"),
   ("821B8012", "E2FF8F12"),
   ("70726F63615F636F6E66696700", "70726F63615F6D616769736B00")]

/-- Lines 853-856: the extra legacy-SAR hexpatch pair. -/
def legacySarPatch : String × String :=
  ("736B69705F696E697472616D667300", "77616E745F696E697472616D667300")

def hexpatchCmd (p : String × String) : List String :=
  ["hexpatch", "kernel", p.1, p.2]

def take16 (s : String) : String := String.mk (s.toList.take 16)

/-- Body of the `for old_hex, new_hex in patches` loop (lines 845-850):
run the substitution, set `kernel_patched` on exit 0. -/
def kernelStep (w : World) (acc : RunState × Bool) (p : String × String) :
    RunState × Bool :=
  let r := run_command w acc.1 (hexpatchCmd p)
  if r.2 = 0 then
    (logMsg r.1 ("Applied kernel patch: " ++ take16 p.1 ++ "...") "SUCCESS", true)
  else (r.1, acc.2)

/-- Lines 852-860, the legacy-SAR block: one extra substitution, only
when the flag is enabled. -/
def kernelSarStep (w : World) (env : Env) (acc : RunState × Bool) :
    RunState × Bool :=
  if boolStr env.legacySar = "true" then
    let r := run_command w acc.1 (hexpatchCmd legacySarPatch)
    if r.2 = 0 then (logMsg r.1 "Applied legacy SAR patch" "SUCCESS", true)
    else (r.1, acc.2)
  else acc

/-- Lines 829-864: kernel patching.  Every base substitution is always
attempted; the legacy-SAR one only when the flag is enabled; the kernel
artifact is removed exactly when no attempt returned 0. -/
def stageKernel (w : World) (env : Env) (st : RunState) : RunState × Option String :=
  if "kernel" ∈ st.files then
    let acc := kernelSarStep w env (kernelPatches.foldl (kernelStep w) (st, false))
    if acc.2 = false then
      (logMsg (osRemove acc.1 "kernel") "No kernel patches applied" "INFO", none)
    else (acc.1, none)
  else (st, none)

def dtbNames : List String := ["dtb", "kernel_dtb", "extra"]

/-- Lines 866-883: device-tree handling, non-fatal throughout. -/
def stageDtb (w : World) (st : RunState) : RunState × Option String :=
  (dtbNames.foldl (fun st dt =>
    if dt ∈ st.files then
      let r := run_command w st ["dtb", dt, "test"]
      let st := if r.2 ≠ 0 then logMsg r.1 (dt ++ " was patched by old Magisk") "WARNING" else r.1
      let r2 := run_command w st ["dtb", dt, "patch"]
      if r2.2 = 0 then logMsg r2.1 ("Patched " ++ dt ++ " successfully") "SUCCESS" else r2.1
    else st) st, none)

/-- Lines 885-897. -/
def stageRepack (w : World) (st : RunState) : RunState × Option String :=
  let r := run_command w st ["repack", "boot.img"]
  if r.2 ≠ 0 then (r.1, some "Failed to repack boot image!")
  else if "new-boot.img" ∉ r.1.files then (r.1, some "Output boot image not found!")
  else (r.1, none)

/-- Lines 909-931: the user picks a destination or cancels; both are
non-fatal. -/
def stageSave (savePath : Option String) (st : RunState) : RunState × Option String :=
  match savePath with
  | some p => (copyOut st "new-boot.img" p, none)
  | none => (logMsg st "Save cancelled by user" "WARNING", none)

/-- The `try` block of `_patch_worker`, stages in source order. -/
def runBody (w : World) (env : Env) (apk : Apk) (arch : String)
    (savePath : Option String) : RunState × Option String :=
  andThen (stageExtract apk arch initState) (fun st =>
  andThen (stageUnpack w st) (fun st =>
  andThen (stageClassify w st) (fun st =>
  andThen (stageSha1 w st) (fun st =>
  andThen (stageCompress w st) (fun st =>
  andThen (stageMagiskinit st) (fun st =>
  andThen (stageConfig env st) (fun st =>
  andThen (stageRamdiskPatch w st) (fun st =>
  andThen (stageKernel w env st) (fun st =>
  andThen (stageDtb w st) (fun st =>
  andThen (stageRepack w st) (fun st =>
  stageSave savePath st)))))))))))

/-- Outcome of one `_patch_worker` run, after the `except` and `finally`
blocks: the caught error (if any), the error dialogs shown, whether the
working directory was removed (the `finally` block always removes it;
its own `except: pass` is modelled as the removal succeeding), and the
run-in-progress flag. -/
structure RunResult where
  state : RunState
  error : Option String
  errorDialogs : List String
  tempDirRemoved : Bool
  isPatching : Bool

/-- `_patch_worker` (lines 671-949): the `try` body, then `except`
showing one dialog per caught error, then `finally` removing the
working directory and resetting `is_patching`. -/
def patch_worker (w : World) (env : Env) (apk : Apk) (arch : String)
    (savePath : Option String) : RunResult :=
  let r := runBody w env apk arch savePath
  { state := r.1
    error := r.2
    errorDialogs := match r.2 with | some m => [m] | none => []
    tempDirRemoved := true
    isPatching := false }

/-! ## Basic state lemmas -/

@[simp] theorem addFile_cmds (st : RunState) (f : String) :
    (addFile st f).cmds = st.cmds := by
  unfold addFile; split <;> rfl

@[simp] theorem addFile_copies (st : RunState) (f : String) :
    (addFile st f).copies = st.copies := by
  unfold addFile; split <;> rfl

@[simp] theorem addFile_needed (st : RunState) (f : String) :
    (addFile st f).needed = st.needed := by
  unfold addFile; split <;> rfl

@[simp] theorem addFile_sha1 (st : RunState) (f : String) :
    (addFile st f).sha1 = st.sha1 := by
  unfold addFile; split <;> rfl

@[simp] theorem addFile_config (st : RunState) (f : String) :
    (addFile st f).config = st.config := by
  unfold addFile; split <;> rfl

@[simp] theorem addFile_logs (st : RunState) (f : String) :
    (addFile st f).logs = st.logs := by
  unfold addFile; split <;> rfl

theorem mem_addFile_iff {st : RunState} {f x : String} :
    x ∈ (addFile st f).files ↔ x ∈ st.files ∨ x = f := by
  unfold addFile
  split
  · next h =>
    constructor
    · exact Or.inl
    · rintro (hx | rfl)
      · exact hx
      · exact h
  · next h => simp [List.mem_append]

@[simp] theorem addFiles_cmds (fs : List String) (st : RunState) :
    (addFiles st fs).cmds = st.cmds := by
  induction fs generalizing st with
  | nil => rfl
  | cons f fs ih => simpa [addFiles, List.foldl] using ih (addFile st f)

@[simp] theorem addFiles_copies (fs : List String) (st : RunState) :
    (addFiles st fs).copies = st.copies := by
  induction fs generalizing st with
  | nil => rfl
  | cons f fs ih => simpa [addFiles, List.foldl] using ih (addFile st f)

@[simp] theorem addFiles_needed (fs : List String) (st : RunState) :
    (addFiles st fs).needed = st.needed := by
  induction fs generalizing st with
  | nil => rfl
  | cons f fs ih => simpa [addFiles, List.foldl] using ih (addFile st f)

@[simp] theorem addFiles_sha1 (fs : List String) (st : RunState) :
    (addFiles st fs).sha1 = st.sha1 := by
  induction fs generalizing st with
  | nil => rfl
  | cons f fs ih => simpa [addFiles, List.foldl] using ih (addFile st f)

@[simp] theorem addFiles_config (fs : List String) (st : RunState) :
    (addFiles st fs).config = st.config := by
  induction fs generalizing st with
  | nil => rfl
  | cons f fs ih => simpa [addFiles, List.foldl] using ih (addFile st f)

@[simp] theorem addFiles_logs (fs : List String) (st : RunState) :
    (addFiles st fs).logs = st.logs := by
  induction fs generalizing st with
  | nil => rfl
  | cons f fs ih => simpa [addFiles, List.foldl] using ih (addFile st f)

theorem mem_addFiles_iff {fs : List String} {st : RunState} {x : String} :
    x ∈ (addFiles st fs).files ↔ x ∈ st.files ∨ x ∈ fs := by
  induction fs generalizing st with
  | nil => simp [addFiles]
  | cons f fs ih =>
    have : addFiles st (f :: fs) = addFiles (addFile st f) fs := rfl
    rw [this, ih, mem_addFile_iff]
    simp only [List.mem_cons]
    tauto

@[simp] theorem run_command_snd (w : World) (st : RunState) (cmd : List String) :
    (run_command w st cmd).2 = w.exitCode cmd := rfl

@[simp] theorem run_command_cmds (w : World) (st : RunState) (cmd : List String) :
    (run_command w st cmd).1.cmds = st.cmds ++ [cmd] := by
  simp [run_command]

@[simp] theorem run_command_copies (w : World) (st : RunState) (cmd : List String) :
    (run_command w st cmd).1.copies = st.copies := by
  simp [run_command]

@[simp] theorem run_command_needed (w : World) (st : RunState) (cmd : List String) :
    (run_command w st cmd).1.needed = st.needed := by
  simp [run_command]

@[simp] theorem run_command_sha1 (w : World) (st : RunState) (cmd : List String) :
    (run_command w st cmd).1.sha1 = st.sha1 := by
  simp [run_command]

@[simp] theorem run_command_config (w : World) (st : RunState) (cmd : List String) :
    (run_command w st cmd).1.config = st.config := by
  simp [run_command]

theorem mem_run_command_files {w : World} {st : RunState} {cmd : List String}
    {x : String} (h : x ∈ st.files) : x ∈ (run_command w st cmd).1.files := by
  simp only [run_command]
  exact mem_addFiles_iff.mpr (Or.inl h)

@[simp] theorem logMsg_files (st : RunState) (m l : String) :
    (logMsg st m l).files = st.files := rfl

@[simp] theorem logMsg_cmds (st : RunState) (m l : String) :
    (logMsg st m l).cmds = st.cmds := rfl

@[simp] theorem logMsg_copies (st : RunState) (m l : String) :
    (logMsg st m l).copies = st.copies := rfl

@[simp] theorem logMsg_sha1 (st : RunState) (m l : String) :
    (logMsg st m l).sha1 = st.sha1 := rfl

@[simp] theorem logMsg_config (st : RunState) (m l : String) :
    (logMsg st m l).config = st.config := rfl

@[simp] theorem copy2_cmds (st : RunState) (src dst : String) :
    (copy2 st src dst).cmds = st.cmds := by
  simp [copy2]

@[simp] theorem copy2_copies (st : RunState) (src dst : String) :
    (copy2 st src dst).copies = st.copies ++ [(src, dst)] := by
  simp [copy2]

@[simp] theorem osRemove_cmds (st : RunState) (f : String) :
    (osRemove st f).cmds = st.cmds := rfl

theorem mem_osRemove_iff {st : RunState} {f x : String} :
    x ∈ (osRemove st f).files ↔ x ∈ st.files ∧ x ≠ f := by
  simp [osRemove, List.mem_filter]

/-! ## Claim C4 — cleanup and run flag on every exit path -/

/-- Claim C4: for every run of the patch orchestrator, on every exit path
(success, abort via raised error, or any modelled fault) the working
directory created for the run is removed and the run-in-progress flag
is reset to false, and an abort surfaces exactly one run-level error
message (the dialog list is exactly the caught error, so a successful
run shows none and an aborted run shows one); the worker always
returns a result rather than terminating abnormally. -/
theorem C4_cleanup_on_all_paths (w : World) (env : Env) (apk : Apk)
    (arch : String) (savePath : Option String) :
    (patch_worker w env apk arch savePath).tempDirRemoved = true ∧
    (patch_worker w env apk arch savePath).isPatching = false ∧
    (patch_worker w env apk arch savePath).errorDialogs =
      (patch_worker w env apk arch savePath).error.toList := by
  refine ⟨rfl, rfl, ?_⟩
  unfold patch_worker
  rcases h : (runBody w env apk arch savePath).2 with _ | m <;>
    simp [h, Option.toList]

/-! ## Extraction lemmas -/

@[simp] theorem scanEntries_nil (arch : String) (ver : Nat) :
    scanEntries arch ver [] = ([], []) := rfl

theorem scanEntries_cons (arch : String) (ver : Nat) (e : String)
    (rest : List String) :
    scanEntries arch ver (e :: rest) =
      ((entryExtract arch ver e).1 ++ (scanEntries arch ver rest).1,
       (entryExtract arch ver e).2 ++ (scanEntries arch ver rest).2) := rfl

theorem mem_scan_payload {arch : String} {ver : Nat} {entries : List String}
    {e : String} (he : e ∈ entries) {pr : String × String}
    (hp : pr ∈ (entryExtract arch ver e).1) :
    pr ∈ (scanEntries arch ver entries).1 := by
  induction entries with
  | nil => cases he
  | cons a rest ih =>
    rw [scanEntries_cons]
    rcases List.mem_cons.mp he with rfl | h
    · exact List.mem_append.mpr (Or.inl hp)
    · exact List.mem_append.mpr (Or.inr (ih h))

theorem extract_events_eq (apk : Apk) (arch : String) :
    (extract_from_apk apk arch).events =
      (scanEntries arch (magiskVerOf apk.utilFunctions) apk.entries).2 := by
  simp only [extract_from_apk]
  split <;> rfl

theorem extract_result_some {apk : Apk} {arch : String}
    {p : List (String × String)}
    (h : (extract_from_apk apk arch).result = some p) :
    p = (scanEntries arch (magiskVerOf apk.utilFunctions) apk.entries).1 := by
  simp only [extract_from_apk] at h
  split at h <;> simp_all

/-! ## Claim C3 — the 32-bit compatibility substitution -/

/-- The two compatibility pairs of the claim:
arm64-v8a takes the 32-bit payload from armeabi-v7a, x86_64 from x86. -/
def compatPair (arch parentDir : String) : Prop :=
  (arch = "arm64-v8a" ∧ parentDir = "armeabi-v7a") ∨
  (arch = "x86_64" ∧ parentDir = "x86")

instance (arch parentDir : String) : Decidable (compatPair arch parentDir) := by
  unfold compatPair; infer_instance

/-- An entry that triggers the compatibility rule: at least two path
segments, final segment `libmagisk32.so`, and the architecture folder
paired with the requested architecture. -/
def compatEntry (arch e : String) : Prop :=
  2 ≤ (pySplit e '/').length ∧
  (pySplit e '/').getLastD "" = "libmagisk32.so" ∧
  compatPair arch ((pySplit e '/').getD ((pySplit e '/').length - 2) "")

instance (arch e : String) : Decidable (compatEntry arch e) := by
  unfold compatEntry; infer_instance

theorem entryExtract_compat_iff (arch : String) (ver : Nat) (e : String) :
    ("magisk32", ExtractKind.compat32) ∈ (entryExtract arch ver e).2 ↔
      ver < 28000 ∧ compatEntry arch e := by
  unfold compatEntry compatPair
  simp only [entryExtract]
  by_cases hlen : (pySplit e '/').length < 2
  · rw [if_pos hlen]
    simp only [List.not_mem_nil, false_iff]
    rintro ⟨-, h2, -⟩
    omega
  · rw [if_neg hlen]
    by_cases hg1 : (pyStartsWith ((pySplit e '/').getLastD "") "lib" &&
        pyEndsWith ((pySplit e '/').getLastD "") ".so") = true
    · rw [if_pos hg1]
      by_cases hex : (pySplit e '/').getLastD "" ∈ excludedLibs
      · rw [if_pos hex]
        simp only [List.not_mem_nil, false_iff]
        rintro ⟨-, -, hfn, -⟩
        rw [hfn] at hex
        simp [excludedLibs] at hex
      · rw [if_neg hex]
        by_cases hpa : (pySplit e '/').getD ((pySplit e '/').length - 2) "" = arch
        · rw [if_pos hpa]
          constructor
          · intro hmem
            exfalso
            simp at hmem
          · rintro ⟨-, -, -, (⟨ha, hp⟩ | ⟨ha, hp⟩)⟩ <;>
              (rw [hp, ha] at hpa; exact absurd hpa (by decide))
        · rw [if_neg hpa]
          by_cases hver : ver < 28000
          · rw [if_pos hver]
            by_cases hc1 : arch = "arm64-v8a" ∧
                (pySplit e '/').getLastD "" = "libmagisk32.so" ∧
                (pySplit e '/').getD ((pySplit e '/').length - 2) "" = "armeabi-v7a"
            · rw [if_pos hc1]
              constructor
              · intro _
                exact ⟨hver, by omega, hc1.2.1, Or.inl ⟨hc1.1, hc1.2.2⟩⟩
              · intro _
                exact List.mem_singleton.mpr rfl
            · rw [if_neg hc1]
              by_cases hc2 : arch = "x86_64" ∧
                  (pySplit e '/').getLastD "" = "libmagisk32.so" ∧
                  (pySplit e '/').getD ((pySplit e '/').length - 2) "" = "x86"
              · rw [if_pos hc2]
                constructor
                · intro _
                  exact ⟨hver, by omega, hc2.2.1, Or.inr ⟨hc2.1, hc2.2.2⟩⟩
                · intro _
                  exact List.mem_singleton.mpr rfl
              · rw [if_neg hc2]
                simp only [List.not_mem_nil, false_iff]
                rintro ⟨-, -, hfn, (⟨ha, hp⟩ | ⟨ha, hp⟩)⟩
                · exact hc1 ⟨ha, hfn, hp⟩
                · exact hc2 ⟨ha, hfn, hp⟩
          · rw [if_neg hver]
            simp only [List.not_mem_nil, false_iff]
            rintro ⟨hv, -⟩
            exact hver hv
    · rw [if_neg hg1]
      by_cases hstub : (pySplit e '/').getLastD "" = "stub.apk"
      · rw [if_pos hstub]
        constructor
        · intro hmem
          exfalso
          simp at hmem
        · rintro ⟨-, -, hfn, -⟩
          rw [hfn] at hg1
          exact (hg1 (by decide)).elim
      · rw [if_neg hstub]
        simp only [List.not_mem_nil, false_iff]
        rintro ⟨-, -, hfn, -⟩
        rw [hfn] at hg1
        exact hg1 (by decide)

theorem scan_compat_iff (arch : String) (ver : Nat) (entries : List String) :
    ("magisk32", ExtractKind.compat32) ∈ (scanEntries arch ver entries).2 ↔
      ver < 28000 ∧ ∃ e ∈ entries, compatEntry arch e := by
  induction entries with
  | nil => simp
  | cons a rest ih =>
    rw [scanEntries_cons]
    simp only [List.mem_append, ih, entryExtract_compat_iff, List.mem_cons]
    constructor
    · rintro (⟨hv, hc⟩ | ⟨hv, e, he, hc⟩)
      · exact ⟨hv, a, Or.inl rfl, hc⟩
      · exact ⟨hv, e, Or.inr he, hc⟩
    · rintro ⟨hv, e, (rfl | he), hc⟩
      · exact Or.inl ⟨hv, hc⟩
      · exact Or.inr ⟨hv, ⟨e, he, hc⟩⟩

theorem entryExtract_compat_payload (arch : String) (ver : Nat) (e : String)
    (hv : ver < 28000) (hc : compatEntry arch e) :
    ("magisk32", "magisk32") ∈ (entryExtract arch ver e).1 := by
  obtain ⟨h2, hfn, hpair⟩ := hc
  have hlen : ¬((pySplit e '/').length < 2) := by omega
  have hg1 : (pyStartsWith ((pySplit e '/').getLastD "") "lib" &&
      pyEndsWith ((pySplit e '/').getLastD "") ".so") = true := by
    rw [hfn]; decide
  have hex : ¬((pySplit e '/').getLastD "" ∈ excludedLibs) := by
    rw [hfn]; decide
  simp only [entryExtract]
  rw [if_neg hlen, if_pos hg1, if_neg hex]
  rcases hpair with ⟨ha, hp⟩ | ⟨ha, hp⟩
  · have hpa : ¬((pySplit e '/').getD ((pySplit e '/').length - 2) "" = arch) := by
      rw [hp, ha]; decide
    rw [if_neg hpa, if_pos hv, if_pos ⟨ha, hfn, hp⟩]
    exact List.mem_singleton.mpr rfl
  · have hpa : ¬((pySplit e '/').getD ((pySplit e '/').length - 2) "" = arch) := by
      rw [hp, ha]; decide
    have hc1 : ¬(arch = "arm64-v8a" ∧
        (pySplit e '/').getLastD "" = "libmagisk32.so" ∧
        (pySplit e '/').getD ((pySplit e '/').length - 2) "" = "armeabi-v7a") := by
      rintro ⟨ha2, -, -⟩
      rw [ha] at ha2
      exact absurd ha2 (by decide)
    rw [if_neg hpa, if_pos hv, if_neg hc1, if_pos ⟨ha, hfn, hp⟩]
    exact List.mem_singleton.mpr rfl

/-- Claim C3: the 32-bit compatibility substitution fires exactly when
the declared version code is below 28000 and some entry has final
segment `libmagisk32.so` inside an architecture folder forming one of
the two defined pairs with the requested architecture (arm64-v8a from
armeabi-v7a, x86_64 from x86); whenever it fires on a successful
extraction, the payload set contains the logical name `magisk32`. -/
theorem C3_compat_substitution (apk : Apk) (arch : String) :
    (("magisk32", ExtractKind.compat32) ∈ (extract_from_apk apk arch).events ↔
      magiskVerOf apk.utilFunctions < 28000 ∧ ∃ e ∈ apk.entries, compatEntry arch e) ∧
    (∀ p, (extract_from_apk apk arch).result = some p →
      ("magisk32", ExtractKind.compat32) ∈ (extract_from_apk apk arch).events →
      "magisk32" ∈ payloadKeys p) := by
  constructor
  · rw [extract_events_eq]
    exact scan_compat_iff arch (magiskVerOf apk.utilFunctions) apk.entries
  · intro p hp hev
    rw [extract_events_eq, scan_compat_iff] at hev
    obtain ⟨hv, e, he, hc⟩ := hev
    rw [extract_result_some hp]
    exact List.mem_map_of_mem Prod.fst
      (mem_scan_payload he (entryExtract_compat_payload arch _ e hv hc))

/-- The end-to-end scenario of the claim: a package declaring version
code 27000, holding `armeabi-v7a`'s `libmagisk32.so`. -/
def c3Apk : Apk :=
  { entries := ["lib/armeabi-v7a/libmagisk32.so", "lib/arm64-v8a/libmagiskinit.so"],
    utilFunctions := some "MAGISK_VER_CODE=27000" }

theorem C3_compat_substitution_witness :
    ("magisk32", ExtractKind.compat32) ∈ (extract_from_apk c3Apk "arm64-v8a").events ∧
    "magisk32" ∈ payloadKeys
      [("magisk32", "magisk32"), ("magiskinit", "magiskinit")] := by
  have h := C3_compat_substitution c3Apk "arm64-v8a"
  have hev := h.1.mpr ⟨by decide, "lib/armeabi-v7a/libmagisk32.so", by decide, by decide⟩
  exact ⟨hev, h.2 [("magisk32", "magisk32"), ("magiskinit", "magiskinit")] (by decide) hev⟩

/-! ## Claim C5 — required file or diagnostic -/

theorem extract_result_pos {apk : Apk} {arch : String}
    (hm : "magiskinit" ∈
      payloadKeys (scanEntries arch (magiskVerOf apk.utilFunctions) apk.entries).1) :
    (extract_from_apk apk arch).result =
      some (scanEntries arch (magiskVerOf apk.utilFunctions) apk.entries).1 := by
  simp only [extract_from_apk]
  have hfil : requiredFiles.filter
      (fun f => f ∉ payloadKeys
        (scanEntries arch (magiskVerOf apk.utilFunctions) apk.entries).1) = [] := by
    simp [requiredFiles, hm]
  simp only [hfil]
  split <;> simp_all

theorem extract_diag_neg {apk : Apk} {arch : String}
    (hm : "magiskinit" ∉
      payloadKeys (scanEntries arch (magiskVerOf apk.utilFunctions) apk.entries).1) :
    (extract_from_apk apk arch).result = none ∧
    "Missing required files: magiskinit" ∈ (extract_from_apk apk arch).diagnostics ∧
    (arch ∉ availableArchs apk.entries →
      ("Architecture " ++ arch ++ " not available in this APK")
        ∈ (extract_from_apk apk arch).diagnostics ∧
      ("Try one of: " ++ joinComma (availableArchs apk.entries))
        ∈ (extract_from_apk apk arch).diagnostics) := by
  simp only [extract_from_apk]
  have hfil : requiredFiles.filter
      (fun f => f ∉ payloadKeys
        (scanEntries arch (magiskVerOf apk.utilFunctions) apk.entries).1) =
      ["magiskinit"] := by
    simp [requiredFiles, hm]
  simp only [hfil]
  have hmiss : ("Missing required files: " ++ joinComma ["magiskinit"]) =
      "Missing required files: magiskinit" := by decide
  refine ⟨by simp, ?_, ?_⟩
  · rw [← hmiss]
    split <;> simp_all
  · intro hna
    rw [if_neg hna]
    constructor <;> (split <;> simp_all)

/-- Claim C5: for every package and requested architecture, extraction
either returns a payload set containing the required logical file
`magiskinit`, or returns the `None` sentinel after logging a diagnostic
naming the missing file; and when the requested architecture folder was
absent among the scanned entries, the diagnostic additionally names the
unavailable architecture and lists the architectures actually found. -/
theorem C5_required_or_diagnostic (apk : Apk) (arch : String) :
    (∃ p, (extract_from_apk apk arch).result = some p ∧
      "magiskinit" ∈ payloadKeys p) ∨
    ((extract_from_apk apk arch).result = none ∧
      "Missing required files: magiskinit" ∈ (extract_from_apk apk arch).diagnostics ∧
      (arch ∉ availableArchs apk.entries →
        ("Architecture " ++ arch ++ " not available in this APK")
          ∈ (extract_from_apk apk arch).diagnostics ∧
        ("Try one of: " ++ joinComma (availableArchs apk.entries))
          ∈ (extract_from_apk apk arch).diagnostics)) := by
  by_cases hm : "magiskinit" ∈
      payloadKeys (scanEntries arch (magiskVerOf apk.utilFunctions) apk.entries).1
  · exact Or.inl ⟨_, extract_result_pos hm, hm⟩
  · exact Or.inr (extract_diag_neg hm)

/-- A package that has no `magiskinit` and no `arm64-v8a` folder at all. -/
def c5Apk : Apk := { entries := ["lib/x86/libmagisk32.so"], utilFunctions := none }

theorem C5_required_or_diagnostic_witness :
    (extract_from_apk c5Apk "arm64-v8a").result = none ∧
    "Missing required files: magiskinit" ∈ (extract_from_apk c5Apk "arm64-v8a").diagnostics ∧
    ("Architecture " ++ "arm64-v8a" ++ " not available in this APK")
      ∈ (extract_from_apk c5Apk "arm64-v8a").diagnostics ∧
    ("Try one of: " ++ joinComma (availableArchs c5Apk.entries))
      ∈ (extract_from_apk c5Apk "arm64-v8a").diagnostics := by
  rcases C5_required_or_diagnostic c5Apk "arm64-v8a" with ⟨p, hp, -⟩ | ⟨h1, h2, h3⟩
  · have hn : (extract_from_apk c5Apk "arm64-v8a").result = none := by decide
    rw [hn] at hp
    cases hp
  · have h4 := h3 (by decide)
    exact ⟨h1, h2, h4.1, h4.2⟩

/-! ## Claim C7 — the stub.apk rule -/

/-- A package holding a top-level `stub.apk` entry plus the required
init binary, so extraction succeeds. -/
def c7Apk : Apk :=
  { entries := ["stub.apk", "lib/arm64-v8a/libmagiskinit.so"], utilFunctions := none }

/-- Claim C7 counterexample: the claim demands that an entry whose path
is exactly `stub.apk` (no directory prefix) be extracted into the
payload set; on this package extraction succeeds, yet the payload set
has no `stub.apk` key, because the single-segment path is skipped by
the `len(parts) < 2` guard of the extraction loop. -/
theorem C7_counterexample :
    "stub.apk" ∈ c7Apk.entries ∧
    (extract_from_apk c7Apk "arm64-v8a").result =
      some [("magiskinit", "magiskinit")] ∧
    "stub.apk" ∉ payloadKeys [("magiskinit", "magiskinit")] := by
  decide

/-- Claim C7 (amended): every entry whose path has at least two segments
and whose final segment is `stub.apk` is copied and recorded in the
payload set under logical name `stub.apk`, independently of the
requested architecture and of the declared version; a single-segment
top-level `stub.apk` entry is skipped instead. -/
theorem C7_stub_rule (apk : Apk) (arch : String) (e : String)
    (he : e ∈ apk.entries)
    (hlen : 2 ≤ (pySplit e '/').length)
    (hlast : (pySplit e '/').getLastD "" = "stub.apk") :
    "stub.apk" ∈ payloadKeys
      (scanEntries arch (magiskVerOf apk.utilFunctions) apk.entries).1 ∧
    (∀ p, (extract_from_apk apk arch).result = some p →
      "stub.apk" ∈ payloadKeys p) := by
  have hpe : ("stub.apk", "stub.apk") ∈
      (entryExtract arch (magiskVerOf apk.utilFunctions) e).1 := by
    have hlen' : ¬((pySplit e '/').length < 2) := by omega
    have hg1 : ¬((pyStartsWith ((pySplit e '/').getLastD "") "lib" &&
        pyEndsWith ((pySplit e '/').getLastD "") ".so") = true) := by
      rw [hlast]; decide
    simp only [entryExtract]
    rw [if_neg hlen', if_neg hg1, if_pos hlast]
    exact List.mem_singleton.mpr rfl
  have h1 := List.mem_map_of_mem Prod.fst (mem_scan_payload he hpe)
  refine ⟨h1, fun p hp => ?_⟩
  rw [extract_result_some hp]
  exact h1

/-- A package whose `stub.apk` sits where real packages place it. -/
def c7ApkB : Apk :=
  { entries := ["assets/stub.apk", "lib/arm64-v8a/libmagiskinit.so"],
    utilFunctions := none }

theorem C7_stub_rule_witness :
    "stub.apk" ∈ payloadKeys
      (scanEntries "arm64-v8a" (magiskVerOf c7ApkB.utilFunctions) c7ApkB.entries).1 :=
  (C7_stub_rule c7ApkB "arm64-v8a" "assets/stub.apk"
    (by decide) (by decide) (by decide)).1

/-! ## Claim C8 — logical-name computation -/

def c8Apk : Apk :=
  { entries := ["lib/arm64-v8a/libmagiskinit.so", "lib/arm64-v8a/libfoolib.so"],
    utilFunctions := none }

/-- Claim C8 counterexample: the claim predicts logical name `foolib`
for `lib/arm64-v8a/libfoolib.so` (only the leading `lib` and trailing
`.so` removed, interior occurrences preserved); the code stores it
under `foo`, because Python `str.replace` removes every occurrence of
`lib` and then every occurrence of `.so`. -/
theorem C8_counterexample :
    (extract_from_apk c8Apk "arm64-v8a").result =
      some [("magiskinit", "magiskinit"), ("foo", "foo")] ∧
    "foolib" ∉ payloadKeys [("magiskinit", "magiskinit"), ("foo", "foo")] ∧
    "foo" ∈ payloadKeys [("magiskinit", "magiskinit"), ("foo", "foo")] := by
  decide

/-- Claim C8 (amended): for every matching lib-entry (at least two path
segments, final segment starting with `lib` and ending with `.so`, not
excluded) whose architecture folder equals the requested architecture,
the logical name recorded in the payload set is the final segment with
every occurrence of `lib` removed and then every occurrence of `.so`
removed — Python replace-all, which coincides with stripping the prefix
and suffix only when the base name has no interior occurrence of either
substring. -/
theorem C8_logical_name (apk : Apk) (arch : String) (e : String)
    (he : e ∈ apk.entries)
    (hlen : 2 ≤ (pySplit e '/').length)
    (hsw : pyStartsWith ((pySplit e '/').getLastD "") "lib" = true)
    (hew : pyEndsWith ((pySplit e '/').getLastD "") ".so" = true)
    (hex : (pySplit e '/').getLastD "" ∉ excludedLibs)
    (hpa : (pySplit e '/').getD ((pySplit e '/').length - 2) "" = arch) :
    pyReplace (pyReplace ((pySplit e '/').getLastD "") "lib" "") ".so" ""
      ∈ payloadKeys
        (scanEntries arch (magiskVerOf apk.utilFunctions) apk.entries).1 := by
  have hpe : (pyReplace (pyReplace ((pySplit e '/').getLastD "") "lib" "") ".so" "",
      pyReplace (pyReplace ((pySplit e '/').getLastD "") "lib" "") ".so" "")
      ∈ (entryExtract arch (magiskVerOf apk.utilFunctions) e).1 := by
    have hlen' : ¬((pySplit e '/').length < 2) := by omega
    have hg1 : (pyStartsWith ((pySplit e '/').getLastD "") "lib" &&
        pyEndsWith ((pySplit e '/').getLastD "") ".so") = true := by
      rw [Bool.and_eq_true]
      exact ⟨hsw, hew⟩
    simp only [entryExtract]
    rw [if_neg hlen', if_pos hg1, if_neg hex, if_pos hpa]
    exact List.mem_singleton.mpr rfl
  exact List.mem_map_of_mem Prod.fst (mem_scan_payload he hpe)

theorem C8_logical_name_witness :
    pyReplace (pyReplace
        ((pySplit "lib/arm64-v8a/libfoolib.so" '/').getLastD "") "lib" "") ".so" ""
      ∈ payloadKeys
        (scanEntries "arm64-v8a" (magiskVerOf c8Apk.utilFunctions) c8Apk.entries).1 :=
  C8_logical_name c8Apk "arm64-v8a" "lib/arm64-v8a/libfoolib.so"
    (by decide) (by decide) (by decide) (by decide) (by decide) (by decide)

/-! ## Claim C9 — excluded libraries -/

def c9Apk : Apk :=
  { entries := ["lib/arm64-v8a/libmagiskinit.so", "lib/arm64-v8a/libbusybox.so.so"],
    utilFunctions := none }

/-- Claim C9 counterexample: the claim asserts the logical names
`magiskboot`, `busybox`, `magiskpolicy` never appear in the payload
set; the entry `lib/arm64-v8a/libbusybox.so.so` has none of the three
excluded filenames, yet the replace-all naming maps it to logical name
`busybox`, which therefore appears. -/
theorem C9_counterexample :
    (extract_from_apk c9Apk "arm64-v8a").result =
      some [("magiskinit", "magiskinit"), ("busybox", "busybox")] ∧
    "busybox" ∈ payloadKeys [("magiskinit", "magiskinit"), ("busybox", "busybox")] := by
  decide

/-- Claim C9 (amended): an entry whose final path segment is exactly one
of the excluded filenames `libmagiskboot.so`, `libbusybox.so`,
`libmagiskpolicy.so` contributes nothing to the payload set or the
extraction events — in the direct branch and the compatibility branch
alike — so no payload entry is ever derived from those filenames; the
bare logical names can still arise from other filenames. -/
theorem C9_excluded_skipped (arch : String) (ver : Nat) (e : String)
    (hex : (pySplit e '/').getLastD "" ∈ excludedLibs) :
    entryExtract arch ver e = ([], []) ∧
    ∀ entries : List String,
      scanEntries arch ver (e :: entries) = scanEntries arch ver entries := by
  have h1 : entryExtract arch ver e = ([], []) := by
    simp only [entryExtract]
    by_cases hlen : (pySplit e '/').length < 2
    · rw [if_pos hlen]
    · rw [if_neg hlen]
      have hg1 : (pyStartsWith ((pySplit e '/').getLastD "") "lib" &&
          pyEndsWith ((pySplit e '/').getLastD "") ".so") = true := by
        simp only [excludedLibs, List.mem_cons, List.mem_singleton,
          List.not_mem_nil, or_false] at hex
        rcases hex with h | h | h <;> (rw [h]; decide)
      rw [if_pos hg1, if_pos hex]
  refine ⟨h1, fun entries => ?_⟩
  rw [scanEntries_cons, h1]
  simp

theorem C9_excluded_skipped_witness :
    entryExtract "arm64-v8a" 0 "lib/arm64-v8a/libbusybox.so" = ([], []) :=
  (C9_excluded_skipped "arm64-v8a" 0 "lib/arm64-v8a/libbusybox.so" (by decide)).1

/-! ## Claim C10 — version default and threshold behaviour -/

theorem entryExtract_ver_lt (arch : String) (e : String) {v v2 : Nat}
    (hv : v < 28000) (hv2 : v2 < 28000) :
    entryExtract arch v e = entryExtract arch v2 e := by
  simp [entryExtract, hv, hv2]

theorem scanEntries_ver_lt (arch : String) (entries : List String) {v v2 : Nat}
    (hv : v < 28000) (hv2 : v2 < 28000) :
    scanEntries arch v entries = scanEntries arch v2 entries := by
  induction entries with
  | nil => rfl
  | cons e rest ih =>
    rw [scanEntries_cons, scanEntries_cons, ih, entryExtract_ver_lt arch e hv hv2]

/-- Claim C10: when the version-declaration script entry is absent, or
present but without an assignment matching the version-code pattern,
the version code defaults to 0 and extraction scans the package exactly
as it would for any package declaring a version below 28000 — in
particular the below-threshold 32-bit compatibility rule applies. -/
theorem C10_default_version (apk : Apk) (arch : String)
    (h : apk.utilFunctions = none ∨
      ∃ s, apk.utilFunctions = some s ∧ findVerCodeL s.toList = none) :
    magiskVerOf apk.utilFunctions = 0 ∧
    ∀ v : Nat, v < 28000 →
      scanEntries arch (magiskVerOf apk.utilFunctions) apk.entries =
        scanEntries arch v apk.entries := by
  have h0 : magiskVerOf apk.utilFunctions = 0 := by
    rcases h with h | ⟨s, hs, hn⟩
    · rw [h]; rfl
    · rw [hs]
      have hn' : findVerCodeL s.data = none := hn
      simp [magiskVerOf, hn']
  refine ⟨h0, fun v hv => ?_⟩
  rw [h0]
  exact scanEntries_ver_lt arch apk.entries (by omega) hv

/-- A package whose script entry is present but declares no version. -/
def c10Apk : Apk :=
  { entries := ["lib/armeabi-v7a/libmagisk32.so", "lib/arm64-v8a/libmagiskinit.so"],
    utilFunctions := some "no version declared here" }

theorem C10_default_version_witness :
    magiskVerOf c10Apk.utilFunctions = 0 ∧
    scanEntries "arm64-v8a" (magiskVerOf c10Apk.utilFunctions) c10Apk.entries =
      scanEntries "arm64-v8a" 27000 c10Apk.entries := by
  have h := C10_default_version c10Apk "arm64-v8a"
    (Or.inr ⟨"no version declared here", rfl, by decide⟩)
  exact ⟨h.1, h.2 27000 (by decide)⟩

/-! ## Claim C2 — kernel removal iff no substitution succeeded -/

theorem kernelStep_cmds (w : World) (acc : RunState × Bool) (p : String × String) :
    (kernelStep w acc p).1.cmds = acc.1.cmds ++ [hexpatchCmd p] := by
  unfold kernelStep
  by_cases h : w.exitCode (hexpatchCmd p) = 0 <;> simp [h]

theorem kernelStep_flag (w : World) (acc : RunState × Bool) (p : String × String) :
    (kernelStep w acc p).2 = (acc.2 || decide (w.exitCode (hexpatchCmd p) = 0)) := by
  unfold kernelStep
  by_cases h : w.exitCode (hexpatchCmd p) = 0 <;> simp [h]

theorem kernelStep_files_mono (w : World) (acc : RunState × Bool)
    (p : String × String) {x : String} (h : x ∈ acc.1.files) :
    x ∈ (kernelStep w acc p).1.files := by
  unfold kernelStep
  by_cases he : w.exitCode (hexpatchCmd p) = 0 <;>
    simp only [he, run_command_snd, ite_true, ite_false, if_pos, if_neg,
      not_false_iff, logMsg_files] <;>
    exact mem_run_command_files h

theorem foldl_kernelStep_cmds (w : World) (ps : List (String × String))
    (acc : RunState × Bool) :
    (ps.foldl (kernelStep w) acc).1.cmds = acc.1.cmds ++ ps.map hexpatchCmd := by
  induction ps generalizing acc with
  | nil => simp
  | cons p ps ih =>
    simp only [List.foldl_cons, List.map_cons]
    rw [ih, kernelStep_cmds]
    simp

theorem foldl_kernelStep_flag (w : World) (ps : List (String × String))
    (acc : RunState × Bool) :
    (ps.foldl (kernelStep w) acc).2 =
      (acc.2 || ps.any (fun p => decide (w.exitCode (hexpatchCmd p) = 0))) := by
  induction ps generalizing acc with
  | nil => simp
  | cons p ps ih =>
    simp only [List.foldl_cons, List.any_cons]
    rw [ih, kernelStep_flag]
    simp [Bool.or_assoc]

theorem foldl_kernelStep_files_mono (w : World) (ps : List (String × String))
    (acc : RunState × Bool) {x : String} (h : x ∈ acc.1.files) :
    x ∈ (ps.foldl (kernelStep w) acc).1.files := by
  induction ps generalizing acc with
  | nil => simpa using h
  | cons p ps ih => exact ih _ (kernelStep_files_mono w acc p h)

theorem kernelSarStep_cmds (w : World) (env : Env) (acc : RunState × Bool) :
    (kernelSarStep w env acc).1.cmds = acc.1.cmds ++
      (if boolStr env.legacySar = "true" then [hexpatchCmd legacySarPatch]
       else []) := by
  unfold kernelSarStep
  by_cases hs : boolStr env.legacySar = "true"
  · rw [if_pos hs, if_pos hs]
    by_cases he : w.exitCode (hexpatchCmd legacySarPatch) = 0 <;> simp [he]
  · rw [if_neg hs, if_neg hs]
    simp

theorem kernelSarStep_flag (w : World) (env : Env) (acc : RunState × Bool) :
    (kernelSarStep w env acc).2 = (acc.2 ||
      (decide (boolStr env.legacySar = "true") &&
        decide (w.exitCode (hexpatchCmd legacySarPatch) = 0))) := by
  unfold kernelSarStep
  by_cases hs : boolStr env.legacySar = "true"
  · rw [if_pos hs]
    by_cases he : w.exitCode (hexpatchCmd legacySarPatch) = 0 <;> simp [hs, he]
  · rw [if_neg hs]
    simp [hs]

theorem kernelSarStep_files_mono (w : World) (env : Env) (acc : RunState × Bool)
    {x : String} (h : x ∈ acc.1.files) : x ∈ (kernelSarStep w env acc).1.files := by
  unfold kernelSarStep
  by_cases hs : boolStr env.legacySar = "true"
  · rw [if_pos hs]
    by_cases he : w.exitCode (hexpatchCmd legacySarPatch) = 0 <;>
      simp only [he, run_command_snd, ite_true, ite_false, logMsg_files] <;>
      exact mem_run_command_files h
  · rw [if_neg hs]
    exact h

/-- The hexpatch invocations the kernel stage attempts: the three fixed
base substitutions, plus the legacy-SAR one exactly when the flag is
enabled. -/
def kernelCmds (env : Env) : List (List String) :=
  kernelPatches.map hexpatchCmd ++
    (if boolStr env.legacySar = "true" then [hexpatchCmd legacySarPatch] else [])

theorem kernelFlag_iff (w : World) (env : Env) :
    ((kernelPatches.any (fun p => decide (w.exitCode (hexpatchCmd p) = 0)) ||
      (decide (boolStr env.legacySar = "true") &&
        decide (w.exitCode (hexpatchCmd legacySarPatch) = 0))) = true) ↔
    (∃ c ∈ kernelCmds env, w.exitCode c = 0) := by
  simp only [Bool.or_eq_true, Bool.and_eq_true, List.any_eq_true,
    decide_eq_true_iff, kernelCmds, List.mem_append, List.mem_map]
  constructor
  · rintro (⟨p, hp, he⟩ | ⟨hs, he⟩)
    · exact ⟨hexpatchCmd p, Or.inl ⟨p, hp, rfl⟩, he⟩
    · exact ⟨hexpatchCmd legacySarPatch, Or.inr (by simp [hs]), he⟩
  · rintro ⟨c, (⟨p, hp, rfl⟩ | hc), he⟩
    · exact Or.inl ⟨p, hp, he⟩
    · right
      by_cases hs : boolStr env.legacySar = "true"
      · rw [if_pos hs] at hc
        simp only [List.mem_singleton] at hc
        subst hc
        exact ⟨hs, he⟩
      · rw [if_neg hs] at hc
        cases hc

/-- Claim C2: when the kernel artifact exists, the kernel-patch stage
attempts exactly the three fixed substitutions plus one extra when the
legacy-SAR flag is enabled, never raises, and afterwards the kernel
artifact remains in the working directory if and only if at least one
attempted substitution returned exit code 0 — so it is deleted exactly
when zero substitutions succeeded, as non-fatal cleanup. -/
theorem C2_kernel_removal (w : World) (env : Env) (st : RunState)
    (h : "kernel" ∈ st.files) :
    (stageKernel w env st).2 = none ∧
    (stageKernel w env st).1.cmds = st.cmds ++ kernelCmds env ∧
    (kernelCmds env).length = 3 + (if env.legacySar then 1 else 0) ∧
    ("kernel" ∈ (stageKernel w env st).1.files ↔
      ∃ c ∈ kernelCmds env, w.exitCode c = 0) := by
  have hlen : (kernelCmds env).length = 3 + (if env.legacySar then 1 else 0) := by
    cases hb : env.legacySar <;> simp [kernelCmds, kernelPatches, boolStr, hb]
  have hflag : (kernelSarStep w env (kernelPatches.foldl (kernelStep w) (st, false))).2 =
      (kernelPatches.any (fun p => decide (w.exitCode (hexpatchCmd p) = 0)) ||
        (decide (boolStr env.legacySar = "true") &&
          decide (w.exitCode (hexpatchCmd legacySarPatch) = 0))) := by
    rw [kernelSarStep_flag, foldl_kernelStep_flag]
    simp
  have hcmds : (kernelSarStep w env (kernelPatches.foldl (kernelStep w) (st, false))).1.cmds =
      st.cmds ++ kernelCmds env := by
    rw [kernelSarStep_cmds, foldl_kernelStep_cmds]
    simp [kernelCmds, List.append_assoc]
  have hmem : "kernel" ∈
      (kernelSarStep w env (kernelPatches.foldl (kernelStep w) (st, false))).1.files :=
    kernelSarStep_files_mono w env _ (foldl_kernelStep_files_mono w _ _ h)
  simp only [stageKernel]
  rw [if_pos h]
  by_cases hfl : (kernelSarStep w env (kernelPatches.foldl (kernelStep w) (st, false))).2 = false
  · rw [if_pos hfl]
    refine ⟨rfl, by simpa using hcmds, hlen, ?_⟩
    rw [logMsg_files]
    constructor
    · intro hk
      exact absurd (mem_osRemove_iff.mp hk).2 (by simp)
    · intro hex
      have := (kernelFlag_iff w env).mpr hex
      rw [← hflag, hfl] at this
      cases this
  · rw [if_neg hfl]
    have htrue : (kernelSarStep w env (kernelPatches.foldl (kernelStep w) (st, false))).2 = true :=
      Bool.of_not_eq_false hfl
    refine ⟨rfl, hcmds, hlen, ?_⟩
    refine iff_of_true hmem ?_
    rw [← kernelFlag_iff w env, ← hflag]
    exact htrue

/-- A world in which only the legacy-SAR substitution succeeds, and a
state holding a kernel artifact. -/
def c2World : World :=
  { exitCode := fun c => if c = hexpatchCmd legacySarPatch then 0 else 1
    creates := fun _ => []
    captureOut := fun _ => none }

def c2State : RunState :=
  { files := ["boot.img", "kernel"], cmds := [], copies := [], needed := [],
    sha1 := "", config := none, logs := [] }

def c2Env : Env :=
  { keepVerity := true, keepForceEncrypt := true, recoveryMode := false,
    patchVbmetaFlag := false, legacySar := true }

theorem C2_kernel_removal_witness :
    (stageKernel c2World c2Env c2State).2 = none ∧
    (stageKernel c2World c2Env c2State).1.cmds =
      c2State.cmds ++ kernelCmds c2Env ∧
    (kernelCmds c2Env).length = 3 + (if c2Env.legacySar then 1 else 0) ∧
    ("kernel" ∈ (stageKernel c2World c2Env c2State).1.files ↔
      ∃ c ∈ kernelCmds c2Env, c2World.exitCode c = 0) :=
  C2_kernel_removal c2World c2Env c2State (by decide)

/-! ## Claim C6 — the configuration file -/

theorem head_of_dropWhile_not {p : Char → Bool} {l : List Char} {a : Char}
    (h : (l.dropWhile p).head? = some a) : p a = false := by
  have h0 := List.head?_dropWhile_not p l
  rw [h] at h0
  exact h0

theorem dropWhile_idem (p : Char → Bool) (l : List Char) :
    (l.dropWhile p).dropWhile p = l.dropWhile p := by
  cases h : l.dropWhile p with
  | nil => rfl
  | cons a t =>
    have ha : p a = false := head_of_dropWhile_not (by rw [h]; rfl)
    rw [List.dropWhile_cons_of_neg]
    simp [ha]

theorem stripL_head_not {l : List Char} {a : Char}
    (h : (stripL l).head? = some a) : pyIsSpace a = false := by
  unfold stripL at h
  have hm2 : l.dropWhile pyIsSpace =
      ((l.dropWhile pyIsSpace).reverse.dropWhile pyIsSpace).reverse ++
        ((l.dropWhile pyIsSpace).reverse.takeWhile pyIsSpace).reverse := by
    have hsplit := List.takeWhile_append_dropWhile (p := pyIsSpace)
      (l := (l.dropWhile pyIsSpace).reverse)
    calc l.dropWhile pyIsSpace
        = ((l.dropWhile pyIsSpace).reverse).reverse :=
          (List.reverse_reverse _).symm
      _ = ((l.dropWhile pyIsSpace).reverse.takeWhile pyIsSpace ++
            (l.dropWhile pyIsSpace).reverse.dropWhile pyIsSpace).reverse := by
          rw [hsplit]
      _ = ((l.dropWhile pyIsSpace).reverse.dropWhile pyIsSpace).reverse ++
            ((l.dropWhile pyIsSpace).reverse.takeWhile pyIsSpace).reverse :=
          List.reverse_append _ _
  cases hr : ((l.dropWhile pyIsSpace).reverse.dropWhile pyIsSpace).reverse with
  | nil => rw [hr] at h; cases h
  | cons b t =>
    rw [hr] at h
    simp only [List.head?_cons, Option.some.injEq] at h
    have hmb : (l.dropWhile pyIsSpace).head? = some b := by
      rw [hm2, hr]; rfl
    have hb := head_of_dropWhile_not hmb
    rwa [h] at hb

theorem stripL_idem (l : List Char) : stripL (stripL l) = stripL l := by
  have h1 : (stripL l).dropWhile pyIsSpace = stripL l := by
    cases h : stripL l with
    | nil => rfl
    | cons a t =>
      have ha : pyIsSpace a = false := stripL_head_not (by rw [h]; rfl)
      rw [List.dropWhile_cons_of_neg]
      simp [ha]
  have h2 : (stripL l).reverse.dropWhile pyIsSpace = (stripL l).reverse := by
    have hrev : (stripL l).reverse =
        (l.dropWhile pyIsSpace).reverse.dropWhile pyIsSpace := by
      unfold stripL
      rw [List.reverse_reverse]
    rw [hrev, dropWhile_idem]
  calc stripL (stripL l)
      = (((stripL l).dropWhile pyIsSpace).reverse.dropWhile pyIsSpace).reverse := rfl
    _ = ((stripL l).reverse.dropWhile pyIsSpace).reverse := by rw [h1]
    _ = ((stripL l).reverse).reverse := by rw [h2]
    _ = stripL l := List.reverse_reverse _

theorem pyStrip_idem (s : String) : pyStrip (pyStrip s) = pyStrip s := by
  unfold pyStrip
  exact congrArg String.mk (stripL_idem s.toList)

/-- `run_command_output` returns already-stripped text (or the empty
string on an exception), so stripping it again changes nothing. -/
theorem run_command_output_stripped (w : World) (c : List String) :
    pyStrip (run_command_output w c) = run_command_output w c := by
  unfold run_command_output
  cases w.captureOut c with
  | none => rfl
  | some s => exact pyStrip_idem s

theorem stageSha1_sha1 (w : World) (st : RunState) :
    (stageSha1 w st).1.sha1 = run_command_output w sha1Cmd := by
  by_cases h : run_command_output w sha1Cmd = ""
  · simp [stageSha1, h]
  · simp [stageSha1, h, run_command_output_stripped]

/-- Claim C6: the configuration file consists of exactly the five
`KEY=value` lines `KEEPVERITY`, `KEEPFORCEENCRYPT`, `RECOVERYMODE`,
`PATCHVBMETAFLAG`, `LEGACYSAR` in that order, with values `true` or
`false` taken from the five boolean flags, followed by a `SHA1=` line
that is present if and only if the capture-mode digest query returned
non-empty output; a failed digest query (empty output) is non-fatal and
merely omits the line. -/
theorem C6_config_file (w : World) (env : Env) (st : RunState) :
    (stageSha1 w st).2 = none ∧
    (stageConfig env (stageSha1 w st).1).2 = none ∧
    (stageConfig env (stageSha1 w st).1).1.config = some
      (["KEEPVERITY=" ++ boolStr env.keepVerity,
        "KEEPFORCEENCRYPT=" ++ boolStr env.keepForceEncrypt,
        "RECOVERYMODE=" ++ boolStr env.recoveryMode,
        "PATCHVBMETAFLAG=" ++ boolStr env.patchVbmetaFlag,
        "LEGACYSAR=" ++ boolStr env.legacySar] ++
       (if run_command_output w sha1Cmd ≠ ""
        then ["SHA1=" ++ run_command_output w sha1Cmd] else [])) := by
  refine ⟨rfl, rfl, ?_⟩
  simp only [stageConfig, addFile_config]
  rw [stageSha1_sha1]
  rfl

/-! ## Claim C1 — ramdisk classification -/

/-- Claim C1: in the classification stage, when the working directory
holds a ramdisk, exit 0 of `cpio ramdisk.cpio test` yields the stock
outcome (backup copy of the original ramdisk, no restore invocation,
run proceeds); exit 1 yields the already-patched outcome (restore of
the embedded original-configuration backup, then the backup copy, run
proceeds); any other exit raises the fatal error, which aborts the
whole run; and when no ramdisk exists, the classification issues no
toolkit command and the ramdisk-patch stage is a no-op, the run
proceeding without error. -/
theorem C1_ramdisk_classification (w : World) (st : RunState) :
    ("ramdisk.cpio" ∈ st.files → w.exitCode cpioTestCmd = 0 →
      (stageClassify w st).2 = none ∧
      (stageClassify w st).1.cmds = st.cmds ++ [cpioTestCmd] ∧
      (stageClassify w st).1.copies =
        st.copies ++ [("ramdisk.cpio", "ramdisk.cpio.orig")]) ∧
    ("ramdisk.cpio" ∈ st.files → w.exitCode cpioTestCmd = 1 →
      (stageClassify w st).2 = none ∧
      (stageClassify w st).1.cmds = st.cmds ++ [cpioTestCmd, cpioRestoreCmd] ∧
      (stageClassify w st).1.copies =
        st.copies ++ [("ramdisk.cpio", "ramdisk.cpio.orig")]) ∧
    ("ramdisk.cpio" ∈ st.files → w.exitCode cpioTestCmd ≠ 0 →
      w.exitCode cpioTestCmd ≠ 1 →
      (stageClassify w st).2 = some "Boot image patched by unsupported programs!") ∧
    ("ramdisk.cpio" ∉ st.files →
      (stageClassify w st).2 = none ∧
      (stageClassify w st).1.cmds = st.cmds ∧
      (stageClassify w st).1.files = st.files ∧
      stageRamdiskPatch w st = (st, none)) ∧
    (∀ (env : Env) (apk : Apk) (arch : String) (sp : Option String)
        (nf : List (String × String)),
      (extract_from_apk apk arch).result = some nf → nf ≠ [] →
      w.exitCode ["unpack", "boot.img"] = 0 →
      "ramdisk.cpio" ∈ w.creates ["unpack", "boot.img"] →
      w.exitCode cpioTestCmd ≠ 0 → w.exitCode cpioTestCmd ≠ 1 →
      (patch_worker w env apk arch sp).error =
        some "Boot image patched by unsupported programs!") := by
  refine ⟨?_, ?_, ?_, ?_, ?_⟩
  · intro hmem h0
    simp only [stageClassify]
    rw [if_pos hmem]
    simp only [run_command_snd]
    rw [if_pos h0]
    refine ⟨rfl, ?_, ?_⟩
    · simp
    · simp
  · intro hmem h1
    simp only [stageClassify]
    rw [if_pos hmem]
    simp only [run_command_snd]
    have h0 : ¬(w.exitCode cpioTestCmd = 0) := by rw [h1]; decide
    rw [if_neg h0, if_pos h1]
    refine ⟨rfl, ?_, ?_⟩
    · simp
    · simp
  · intro hmem h0 h1
    simp only [stageClassify]
    rw [if_pos hmem]
    simp only [run_command_snd]
    rw [if_neg h0, if_neg h1]
  · intro hmem
    constructor
    · simp only [stageClassify]
      rw [if_neg hmem]
    constructor
    · simp only [stageClassify]
      rw [if_neg hmem]
      simp
    constructor
    · simp only [stageClassify]
      rw [if_neg hmem]
      rfl
    · simp only [stageRamdiskPatch]
      rw [if_neg hmem]
  · intro env apk arch sp nf hext hnf hu hc h0 h1
    show (runBody w env apk arch sp).2 =
      some "Boot image patched by unsupported programs!"
    unfold runBody
    simp only [stageExtract, hext]
    rw [if_neg hnf]
    simp only [andThen]
    have hu' : ¬(w.exitCode ["unpack", "boot.img"] ≠ 0) := fun hh => hh hu
    simp only [stageUnpack, run_command_snd]
    rw [if_neg hu']
    simp only [andThen]
    have hmem2 : "ramdisk.cpio" ∈
        (run_command w (addFiles { initState with needed := nf } (payloadKeys nf))
          ["unpack", "boot.img"]).1.files := by
      simp only [run_command]
      exact mem_addFiles_iff.mpr (Or.inr hc)
    simp only [stageClassify]
    rw [if_pos hmem2]
    simp only [run_command_snd]
    rw [if_neg h0, if_neg h1]

/-- Worlds for the four classification scenarios. -/
def c1StockWorld : World :=
  { exitCode := fun _ => 0, creates := fun _ => [], captureOut := fun _ => none }

def c1PatchedWorld : World :=
  { exitCode := fun c => if c = cpioTestCmd then 1 else 0,
    creates := fun _ => [], captureOut := fun _ => none }

def c1BadWorld : World :=
  { exitCode := fun c => if c = cpioTestCmd then 2 else 0,
    creates := fun c => if c = ["unpack", "boot.img"] then ["ramdisk.cpio"] else [],
    captureOut := fun _ => none }

def c1State : RunState :=
  { files := ["boot.img", "ramdisk.cpio"], cmds := [], copies := [], needed := [],
    sha1 := "", config := none, logs := [] }

def c1Apk : Apk :=
  { entries := ["lib/arm64-v8a/libmagiskinit.so"], utilFunctions := none }

theorem C1_ramdisk_classification_witness :
    ((stageClassify c1StockWorld c1State).2 = none ∧
      (stageClassify c1StockWorld c1State).1.cmds = c1State.cmds ++ [cpioTestCmd] ∧
      (stageClassify c1StockWorld c1State).1.copies =
        c1State.copies ++ [("ramdisk.cpio", "ramdisk.cpio.orig")]) ∧
    ((stageClassify c1PatchedWorld c1State).2 = none ∧
      (stageClassify c1PatchedWorld c1State).1.cmds =
        c1State.cmds ++ [cpioTestCmd, cpioRestoreCmd] ∧
      (stageClassify c1PatchedWorld c1State).1.copies =
        c1State.copies ++ [("ramdisk.cpio", "ramdisk.cpio.orig")]) ∧
    ((stageClassify c1BadWorld c1State).2 =
      some "Boot image patched by unsupported programs!") ∧
    ((stageClassify c1StockWorld initState).2 = none ∧
      stageRamdiskPatch c1StockWorld initState = (initState, none)) ∧
    ((patch_worker c1BadWorld c2Env c1Apk "arm64-v8a" none).error =
      some "Boot image patched by unsupported programs!") := by
  refine ⟨?_, ?_, ?_, ⟨?_, ?_⟩, ?_⟩
  · exact (C1_ramdisk_classification c1StockWorld c1State).1 (by decide) (by decide)
  · exact (C1_ramdisk_classification c1PatchedWorld c1State).2.1 (by decide) (by decide)
  · exact (C1_ramdisk_classification c1BadWorld c1State).2.2.1
      (by decide) (by decide) (by decide)
  · exact ((C1_ramdisk_classification c1StockWorld initState).2.2.2.1 (by decide)).1
  · exact ((C1_ramdisk_classification c1StockWorld initState).2.2.2.1 (by decide)).2.2.2
  · exact (C1_ramdisk_classification c1BadWorld c1State).2.2.2.2 c2Env c1Apk
      "arm64-v8a" none [("magiskinit", "magiskinit")]
      (by decide) (by decide) (by decide) (by decide) (by decide) (by decide)

end Magisk
